import Mathlib

/-!
Verification development for a minimal Python request-dispatch layer
(`src/MyAPI/MyAPI.py` and `src/main.py`): route registration, path/query
parsing, positional parameter binding, type coercion, dispatch, and
error-to-status-code mapping, shallowly embedded in Lean.

Conventions of the embedding:
* Python values flowing through the binder are modelled by `Val`
  (None, bool, int, str, list, dict); floats do not occur in any claim.
* Python exceptions relevant to the dispatcher are modelled by `PyError`;
  fallible Python code becomes `Except PyError _`.
* The transport body is modelled at the byte level (`ByteStr`,
  `utf8Decode`, `decodeBodyBytes`, `handle_http_bytes`), since
  `json.loads` on bytes can raise `UnicodeDecodeError`; the query string
  and the un-decoded query values `v[0]` are modelled as `String`, and
  `handle_http` is the dispatcher on bodies whose UTF-8 decoding
  succeeded (`handle_http_bytes_agree` relates the two).  Percent-decoding
  of query strings is not modelled (no claim involves percent-encoded
  input).
-/

/-- Python exception classes that the dispatcher's control flow can observe.
`notImplementedError` is the `NotImplementedError("Not found")` the matcher
raises when no endpoint matches; `unicodeDecodeError` is the
`UnicodeDecodeError` that `json.loads` raises on a bytes body that is not
valid UTF-8 (a `ValueError` subclass, but not a `JSONDecodeError`). -/
inductive PyError where
  | valueError
  | typeError
  | jsonDecodeError
  | unicodeDecodeError
  | indexError
  | notImplementedError
deriving DecidableEq

/-- The two annotation types occurring on handler parameters in `src/main.py`:
`int` and `list[float | int]`. -/
inductive PyType where
  | tInt
  | tListNum
deriving DecidableEq

/-- Python values reachable in the binder: None, bools, ints, strings,
lists and (string-keyed) dicts.  Floats are not modelled; no claim
involves them. -/
inductive Val where
  | none
  | bool (b : Bool)
  | int (n : Int)
  | str (s : String)
  | list (xs : List Val)
  | dict (kvs : List (String × Val))

/-- The `func_args` mapping built by the binder: an insertion-ordered
Python dict from argument name to value. -/
abbrev Bindings := List (String × Val)

/-- Lookup in an insertion-ordered dict (first matching key). -/
def dictGet (d : Bindings) (k : String) : Option Val :=
  match d with
  | [] => Option.none
  | (k', v) :: rest => if k' == k then some v else dictGet rest k

/-- Python dict assignment `d[k] = v`: replaces the value in place at the
first occurrence of `k` (dicts keep unique keys, so "first" is "the"),
otherwise appends at the end, preserving insertion order. -/
def dictSet (d : Bindings) (k : String) (v : Val) : Bindings :=
  match d with
  | [] => [(k, v)]
  | (k', w) :: rest => if k' == k then (k, v) :: rest else (k', w) :: dictSet rest k v

/-- Is an `Except` a success? -/
def exceptOk {ε α : Type} : Except ε α → Bool
  | .ok _ => true
  | .error _ => false

/-- Drop the error of an `Except`. -/
def exceptToOption {ε α : Type} : Except ε α → Option α
  | .ok a => some a
  | .error _ => Option.none

/-- ASCII whitespace test used by `int()` argument stripping and the JSON
scanner. -/
def isWsChar (c : Char) : Bool :=
  c == ' ' || c == '\t' || c == '\n' || c == '\r'

/-- Drop leading ASCII whitespace from a character list. -/
def dropWs : List Char → List Char
  | [] => []
  | c :: cs => if isWsChar c then dropWs cs else c :: cs

/-- Leading decimal digits of a character list, and the remainder. -/
def takeDigits : List Char → (List Char × List Char)
  | [] => ([], [])
  | c :: cs =>
    if c.isDigit then
      let (ds, r) := takeDigits cs
      (c :: ds, r)
    else ([], c :: cs)

/-- Numeric value of a digit list. -/
def digitsToNat (ds : List Char) : Nat :=
  ds.foldl (fun n c => n * 10 + (c.toNat - 48)) 0

/-- Model of CPython `int(x)` on a byte/character string: strip ASCII
whitespace at both ends, then an optional single sign followed by a
non-empty digit run; anything else raises `ValueError`.  (Underscore
digit separators are not modelled; no claim involves them.) -/
def pyIntOfChars (cs : List Char) : Option Int :=
  let cs := (dropWs ((dropWs cs.reverse))).reverse
  let cs := dropWs cs
  match cs with
  | [] => Option.none
  | c :: rest =>
    if c == '-' then
      match takeDigits rest with
      | ([], _) => Option.none
      | (ds, r) => if r.isEmpty then some (-(digitsToNat ds : Int)) else Option.none
    else if c == '+' then
      match takeDigits rest with
      | ([], _) => Option.none
      | (ds, r) => if r.isEmpty then some (digitsToNat ds : Int) else Option.none
    else
      match takeDigits (c :: rest) with
      | ([], _) => Option.none
      | (ds, r) => if r.isEmpty then some (digitsToNat ds : Int) else Option.none

/-- Applying a declared annotation to a raw (byte-)string argument, as the
binder does with `endpoint.path_args[arg_name](arg)` and
`endpoint.query_args[i].annotation(value)`:
* `int(s)` parses an integer or raises `ValueError`;
* `list[float | int](s)` iterates the byte string, yielding the list of
  its byte values (CPython: `list(b"8") == [56]`). -/
def coerce (t : PyType) (s : String) : Except PyError Val :=
  match t with
  | .tInt =>
    match pyIntOfChars s.toList with
    | some n => .ok (.int n)
    | Option.none => .error .valueError
  | .tListNum => .ok (.list (s.toList.map fun c => .int (c.toNat : Int)))

/-- Opening brace character (written via its code point so that braces never
occur literally in the file's strings). -/
def lbraceChar : Char := Char.ofNat 123

/-- Closing brace character. -/
def rbraceChar : Char := Char.ofNat 125

/-- Double-quote character. -/
def quoteChar : Char := Char.ofNat 34

/-- Characters of a string literal up to the next unescaped quote: returns
the content and the remainder after the closing quote.  Escape sequences
are not modelled (no claim involves them). -/
def takeStringLit : List Char → Option (List Char × List Char)
  | [] => Option.none
  | c :: cs =>
    if c == quoteChar then some ([], cs)
    else
      match takeStringLit cs with
      | some (content, rest) => some (c :: content, rest)
      | Option.none => Option.none

/-- Match an expected literal character sequence at the head of the input. -/
def expectChars : List Char → List Char → Option (List Char)
  | [], cs => some cs
  | e :: es, c :: cs => if c == e then expectChars es cs else Option.none
  | _ :: _, [] => Option.none

mutual

/-- Fuel-indexed recursive-descent model of CPython `json.loads` (value
production): null, booleans, integers, strings, arrays and objects.
Floats, escape sequences in strings, and the rejection of leading zeros
are not modelled; no claim depends on them. -/
def parseValF : Nat → List Char → Option (Val × List Char)
  | 0, _ => Option.none
  | Nat.succ fuel, cs =>
    match dropWs cs with
    | [] => Option.none
    | c :: rest =>
      if c == 'n' then
        match expectChars ['u', 'l', 'l'] rest with
        | some r => some (Val.none, r)
        | Option.none => Option.none
      else if c == 't' then
        match expectChars ['r', 'u', 'e'] rest with
        | some r => some (Val.bool true, r)
        | Option.none => Option.none
      else if c == 'f' then
        match expectChars ['a', 'l', 's', 'e'] rest with
        | some r => some (Val.bool false, r)
        | Option.none => Option.none
      else if c == '-' then
        match takeDigits rest with
        | ([], _) => Option.none
        | (ds, r) => some (Val.int (-(digitsToNat ds : Int)), r)
      else if c.isDigit then
        match takeDigits (c :: rest) with
        | (ds, r) => some (Val.int (digitsToNat ds : Int), r)
      else if c == quoteChar then
        match takeStringLit rest with
        | some (content, r) => some (Val.str (String.mk content), r)
        | Option.none => Option.none
      else if c == '[' then
        match dropWs rest with
        | d :: r2 =>
          if d == ']' then some (Val.list [], r2)
          else
            match parseItemsF fuel rest with
            | some (xs, r3) => some (Val.list xs, r3)
            | Option.none => Option.none
        | [] => Option.none
      else if c == lbraceChar then
        match dropWs rest with
        | d :: r2 =>
          if d == rbraceChar then some (Val.dict [], r2)
          else
            match parseFieldsF fuel rest with
            | some (kvs, r3) => some (Val.dict kvs, r3)
            | Option.none => Option.none
        | [] => Option.none
      else Option.none

/-- Comma-separated array items up to and including the closing bracket. -/
def parseItemsF : Nat → List Char → Option (List Val × List Char)
  | 0, _ => Option.none
  | Nat.succ fuel, cs =>
    match parseValF fuel cs with
    | Option.none => Option.none
    | some (v, r) =>
      match dropWs r with
      | ',' :: r2 =>
        match parseItemsF fuel r2 with
        | some (xs, r3) => some (v :: xs, r3)
        | Option.none => Option.none
      | d :: r2 =>
        if d == ']' then some ([v], r2) else Option.none
      | [] => Option.none

/-- Comma-separated object fields up to and including the closing brace. -/
def parseFieldsF : Nat → List Char → Option (List (String × Val) × List Char)
  | 0, _ => Option.none
  | Nat.succ fuel, cs =>
    match dropWs cs with
    | c :: r0 =>
      if c == quoteChar then
        match takeStringLit r0 with
        | some (key, r1) =>
          match dropWs r1 with
          | ':' :: r2 =>
            match parseValF fuel r2 with
            | some (v, r3) =>
              match dropWs r3 with
              | ',' :: r4 =>
                match parseFieldsF fuel r4 with
                | some (kvs, r5) => some ((String.mk key, v) :: kvs, r5)
                | Option.none => Option.none
              | d :: r4 =>
                if d == rbraceChar then some ([(String.mk key, v)], r4)
                else Option.none
              | [] => Option.none
            | Option.none => Option.none
          | _ => Option.none
        | Option.none => Option.none
      else Option.none
    | [] => Option.none

end

/-- Model of `json.loads` on a (byte) string: parse one JSON value and
require the remaining input to be whitespace only; otherwise raise
`JSONDecodeError`. -/
def jsonLoads (s : String) : Except PyError Val :=
  match parseValF (2 * s.length + 8) s.toList with
  | some (v, rest) =>
    if (dropWs rest).isEmpty then .ok v else .error .jsonDecodeError
  | Option.none => .error .jsonDecodeError

/-- The body decoding step of `MyApp._handle_http`,
`data = json.loads(body.get("body", b"[]")) except JSONDecodeError: data = None`,
restricted to bodies that are already UTF-8-decoded text: an absent body
(`Option.none`) is defaulted to `[]`, and a parse failure is swallowed
into Python `None` (`Val.none`).  This is NOT the whole story of the
source line: on raw bytes `json.loads` first decodes, and its
`UnicodeDecodeError` on invalid UTF-8 is not caught — see the byte-level
`decodeBodyBytes`, of which this function is the successfully-decoded
branch (`handle_http_bytes_agree`). -/
def decodeBody (rawBody : Option String) : Val :=
  match jsonLoads (rawBody.getD "[]") with
  | .ok v => v
  | .error _ => Val.none

/-- Comma-and-space separated concatenation, the default item separator of
`json.dumps`. -/
def joinComma : List String → String
  | [] => ""
  | [s] => s
  | s :: rest => s ++ ", " ++ joinComma rest

mutual

/-- Model of `json.dumps` with CPython's default separators `", "` and
`": "`.  String escaping is not modelled (the strings dumped by the
handlers contain no characters needing escapes). -/
def jsonDumps : Val → String
  | .none => "null"
  | .bool b => if b then "true" else "false"
  | .int n => toString n
  | .str s => "\x22" ++ s ++ "\x22"
  | .list xs => "[" ++ jsonDumpsItems xs ++ "]"
  | .dict kvs => "\x7b" ++ jsonDumpsFields kvs ++ "\x7d"

/-- `json.dumps` rendering of array items, comma-separated. -/
def jsonDumpsItems : List Val → String
  | [] => ""
  | [v] => jsonDumps v
  | v :: rest => jsonDumps v ++ ", " ++ jsonDumpsItems rest

/-- `json.dumps` rendering of object fields, comma-separated. -/
def jsonDumpsFields : List (String × Val) → String
  | [] => ""
  | [kv] => "\x22" ++ kv.1 ++ "\x22: " ++ jsonDumps kv.2
  | kv :: rest => "\x22" ++ kv.1 ++ "\x22: " ++ jsonDumps kv.2 ++ ", " ++ jsonDumpsFields rest

end

/-- The default header list of `HttpResponse.__init__`:
`[[b"content-type", b"text/plain"]]`. -/
def defaultHeaders : List (String × String) := [("content-type", "text/plain")]

/-- Wire response model: status code, headers (byte-pair list) and text
body, as in class `HttpResponse`. -/
structure HttpResponse where
  body : String
  status_code : Nat
  headers : List (String × String)
deriving DecidableEq

/-- `HttpResponse.__init__`: the headers argument defaults by Python
truthiness (`headers if headers else [[b"content-type", b"text/plain"]]`),
so both `None` and an empty collection fall back to the default. -/
def HttpResponse.make (body : String) (status_code : Nat)
    (headers : Option (List (String × String))) : HttpResponse :=
  ⟨body, status_code,
    match headers with
    | some hs => if hs.isEmpty then defaultHeaders else hs
    | Option.none => defaultHeaders⟩

/-- `JSONResponse.__init__`: JSON-encodes the body and delegates to
`HttpResponse.__init__` without passing headers. -/
def JSONResponse.make (body : Val) (status_code : Nat) : HttpResponse :=
  HttpResponse.make (jsonDumps body) status_code Option.none

/-- What `_handle_http` does with one request: either a response is sent
over the connection, or an uncaught exception propagates out (fatal to the
request, nothing sent). -/
inductive Outcome where
  | response (r : HttpResponse)
  | fatal (e : PyError)
deriving DecidableEq

/-- Python `str.split(sep)` for a single-character separator: `n`
occurrences of the separator yield `n + 1` (possibly empty) pieces. -/
def splitOnChar (sep : Char) : List Char → List (List Char)
  | [] => [[]]
  | c :: cs =>
    if c == sep then [] :: splitOnChar sep cs
    else
      match splitOnChar sep cs with
      | [] => [[c]]
      | p :: ps => (c :: p) :: ps

/-- Python `s.split(sep)` on strings. -/
def pySplit (s : String) (sep : Char) : List String :=
  (splitOnChar sep s.toList).map fun cs => String.mk cs

/-- Model of `urlsplit(path).path` for ASGI request paths: the part of the
string before the first `?` or `#`.  (Scheme/netloc splitting is not
modelled; ASGI paths carry neither.) -/
def urlsplitPathChars : List Char → List Char
  | [] => []
  | c :: cs => if c == '?' || c == '#' then [] else c :: urlsplitPathChars cs

/-- `urlsplit(path).path` on strings. -/
def urlsplitPath (s : String) : String := String.mk (urlsplitPathChars s.toList)

/-- Split a query field at its first `=`, as `parse_qsl` does with
`split("=", 1)`. -/
def splitOnceEq : List Char → Option (List Char × List Char)
  | [] => Option.none
  | c :: cs =>
    if c == '=' then some ([], cs)
    else
      match splitOnceEq cs with
      | some (n, v) => some (c :: n, v)
      | Option.none => Option.none

/-- One `key=value` field of a query string under `parse_qs` defaults
(`keep_blank_values=False`): empty fields, fields without `=`, and fields
with an empty value are all dropped. -/
def parseField (cs : List Char) : Option (String × String) :=
  if cs.isEmpty then Option.none
  else
    match splitOnceEq cs with
    | Option.none => Option.none
    | some (n, v) => if v.isEmpty then Option.none else some (String.mk n, String.mk v)

/-- The ordered pair list of `parse_qsl(query_string)` (percent-decoding
not modelled). -/
def parseQSL (qs : String) : List (String × String) :=
  (splitOnChar '&' qs.toList).filterMap parseField

/-- Collapse repeated keys keeping the first occurrence (position and
value), modelling the dict comprehension
`{k.decode(): v[0] for k, v in parse_qs(query_string).items()}`:
`parse_qs` groups values per key in first-occurrence order and `v[0]`
retains the first value. -/
def groupFirstAux (seen : List String) : List (String × String) → List (String × String)
  | [] => []
  | (k, v) :: rest =>
    if seen.contains k then groupFirstAux seen rest
    else (k, v) :: groupFirstAux (k :: seen) rest

/-- Collapse repeated keys keeping the first occurrence of each. -/
def groupFirst (l : List (String × String)) : List (String × String) :=
  groupFirstAux [] l

/-- The query map the binder sees: parsed query string, first value per
key, keys in first-occurrence order. -/
def parseQS (qs : String) : List (String × String) := groupFirst (parseQSL qs)

/-- Model of an `inspect.Parameter` held in `endpoint.query_args`: its
name and its annotation (written `ann`; the commented-out default-value
branch of the source is never reached, so defaults are not modelled). -/
structure QParam where
  name : String
  ann : PyType
deriving DecidableEq

/-- One registered route, as built by `Registerer.add_endpoint`: first
path segment of the template (`path`), HTTP method, handler, insertion-
ordered `path_args` mapping (name to annotation), and the `query_args`
parameter list. -/
structure Endpoint where
  path : String
  method : String
  func : Bindings → Except PyError HttpResponse
  path_args : List (String × PyType)
  query_args : List QParam

/-- Binding step 1 of `find_endpoint`:
`for i, arg in enumerate(path_args): arg_name = list(endpoint.path_args.keys())[i];
func_args[arg_name] = endpoint.path_args[arg_name](arg)`.
Each raw segment is paired positionally with the declared path parameter of
the same index (dict keys are unique, so the lookup by the `i`-th key is
the `i`-th annotation); running past the declared parameters raises
`IndexError`, a failed conversion raises the converter's error. -/
def bindPath (segs : List String) (decl : List (String × PyType)) (acc : Bindings) :
    Except PyError Bindings :=
  match segs, decl with
  | [], _ => .ok acc
  | _ :: _, [] => .error .indexError
  | s :: srest, (n, t) :: drest =>
    match coerce t s with
    | .ok v => bindPath srest drest (dictSet acc n v)
    | .error e => .error e

/-- Binding step 2 of `find_endpoint`:
`for i, (name, value) in enumerate(query_args.items()): if name in query_args:
func_args[name] = endpoint.query_args[i].annotation(value)`.
The `i`-th query-map entry is paired with the declared query parameter at
the same positional index; `qAll` is the query dict itself, so the
membership guard `name in query_args` is tested against it (it is always
true for entries drawn from that dict).  Exhausting the declared
parameters first raises `IndexError`. -/
def bindQuery (qmap : List (String × String)) (decl : List QParam) (acc : Bindings)
    (qAll : List (String × String)) : Except PyError Bindings :=
  match qmap, decl with
  | [], _ => .ok acc
  | _ :: _, [] => .error .indexError
  | (name, value) :: rest, q :: qrest =>
    if qAll.any fun kv => kv.1 == name then
      match coerce (QParam.ann q) value with
      | .ok v => bindQuery rest qrest (dictSet acc name v) qAll
      | .error e => .error e
    else bindQuery rest qrest acc qAll

/-- The Python test `x not in func_args.keys()` inside the `diff`
comprehension compares an `inspect.Parameter` object `x` with the `str`
keys of `func_args`.  CPython `==` between a `Parameter` and a `str`
falls back to identity and is always `False`, so the membership test is
always false; this function is its embedding. -/
def paramEqKey (_ : QParam) (_ : String) : Bool := false

/-- Binding step 3 of `find_endpoint`:
`if data is not None: diff = [x for x in endpoint.query_args if x not in
func_args.keys()]; for p in diff: func_args[p.name] = data`. -/
def bindBody (qdecl : List QParam) (funcArgs : Bindings) (data : Val) : Bindings :=
  match data with
  | Val.none => funcArgs
  | _ =>
    let diff := qdecl.filter fun x => !(funcArgs.any fun kv => paramEqKey x kv.1)
    diff.foldl (fun d p => dictSet d (QParam.name p) data) funcArgs

/-- The three binding steps run in order for a matched endpoint. -/
def bindArgs (ep : Endpoint) (segs : List String) (qmap : List (String × String))
    (data : Val) : Except PyError Bindings :=
  match bindPath segs ep.path_args [] with
  | .error e => .error e
  | .ok d1 =>
    match bindQuery qmap ep.query_args d1 qmap with
    | .error e => .error e
    | .ok d2 => .ok (bindBody ep.query_args d2 data)

/-- The matching loop of `find_endpoint`: first endpoint whose `path`
(route key) and `method` both equal the request's wins; if none matches,
`NotImplementedError("Not found")` is raised. -/
def findLoop (eps : List Endpoint) (ep_path : String) (segs : List String)
    (qmap : List (String × String)) (method : String) (data : Val) :
    Except PyError (Endpoint × Bindings) :=
  match eps with
  | [] => .error .notImplementedError
  | ep :: rest =>
    if ep.path == ep_path && ep.method == method then
      match bindArgs ep segs qmap data with
      | .ok d => .ok (ep, d)
      | .error e => .error e
    else findLoop rest ep_path segs qmap method data

/-- `MyApp.find_endpoint`: split the request path on `/` discarding empty
segments, take the first segment as route key and the rest as positional
path arguments, parse the query string, then match and bind. -/
def find_endpoint (eps : List Endpoint) (path : String) (query_string : String)
    (method : String) (data : Val) : Except PyError (Endpoint × Bindings) :=
  let urlst := (pySplit (urlsplitPath path) '/').filter fun x => x != ""
  let ep_path := urlst.headD ""
  let path_args := urlst.tail
  let qmap := parseQS query_string
  findLoop eps ep_path path_args qmap method data

/-- Is the exception caught by `_handle_http`'s
`except (ValueError, TypeError, JSONDecodeError)` clause?
`UnicodeDecodeError` is a `ValueError` subclass, so the tuple catches it
whenever it is raised inside that `try` block (e.g. by a `.decode()` call
during binding) — but the body-decoding statement runs in the *first*
`try`, before this clause exists; see `handle_http_bytes`. -/
def caught422 : PyError → Bool
  | .valueError => true
  | .typeError => true
  | .jsonDecodeError => true
  | .unicodeDecodeError => true
  | _ => false

/-- The `except` clauses of `_handle_http`: `(ValueError, TypeError,
JSONDecodeError)` becomes a 422 response, `NotImplementedError` becomes a
404 response, and any other exception is not caught (fatal). -/
def dispatchError (e : PyError) : Outcome :=
  if caught422 e then .response (HttpResponse.make "" 422 Option.none)
  else if e = .notImplementedError then .response (HttpResponse.make "" 404 Option.none)
  else .fatal e

/-- `MyApp._handle_http` on a body whose UTF-8 decoding succeeded: decode
the body leniently, match and bind, call the handler, send its response;
exceptions from matching, binding or the handler call are classified by
the `except` clauses.  `handle_http_bytes` is the full byte-level model
including the body-decoding error path. -/
def handle_http (eps : List Endpoint) (path : String) (qs : String) (method : String)
    (rawBody : Option String) : Outcome :=
  match find_endpoint eps path qs method (decodeBody rawBody) with
  | .error e => dispatchError e
  | .ok (ep, args) =>
    match Endpoint.func ep args with
    | .ok resp => .response resp
    | .error e => dispatchError e

/-- A byte string, as delivered by the transport for the request body:
each entry is one byte value. -/
abbrev ByteStr := List Nat

/-- Does `json.detect_encoding` choose plain `utf-8` for this bytes
object?  False exactly on CPython's special cases: a UTF-32/UTF-16/UTF-8
BOM prefix (the last selects `utf-8-sig`), and the leading-NUL shapes of
BOM-less UTF-16/32 (`len >= 4` with byte 0 or byte 1 zero, or `len == 2`
with either byte zero). -/
def detectsUtf8 (b : ByteStr) : Bool :=
  match b with
  | 0x00 :: 0x00 :: 0xFE :: 0xFF :: _ => false
  | 0xFF :: 0xFE :: 0x00 :: 0x00 :: _ => false
  | 0xFE :: 0xFF :: _ => false
  | 0xFF :: 0xFE :: _ => false
  | 0xEF :: 0xBB :: 0xBF :: _ => false
  | b0 :: b1 :: _ :: _ :: _ => !(b0 == 0) && !(b1 == 0)
  | [b0, b1] => !(b0 == 0) && !(b1 == 0)
  | _ => true

/-- Is a byte a UTF-8 continuation byte (`0x80..0xBF`)? -/
def contByte (b : Nat) : Bool := 0x80 ≤ b && b ≤ 0xBF

/-- Fuel-indexed strict UTF-8 decoder, as `bytes.decode("utf-8")` with
`errors="strict"`: ASCII, 2-, 3- and 4-byte sequences, rejecting stray
continuation bytes, overlong forms (`0xC0`/`0xC1`, `0xE0` with a second
byte below `0xA0`, `0xF0` with a second byte below `0x90`), surrogates
(`0xED` with a second byte above `0x9F`) and code points past `U+10FFFF`
(`0xF4` with a second byte above `0x8F`, lead bytes `0xF5..0xFF`).  The
range checks guarantee every `Char.ofNat` below receives a valid scalar
value. -/
def utf8DecodeF : Nat → List Nat → Option (List Char)
  | 0, _ => Option.none
  | _, [] => some []
  | Nat.succ fuel, b :: bs =>
    if b ≤ 0x7F then
      (utf8DecodeF fuel bs).map fun cs => Char.ofNat b :: cs
    else if 0xC2 ≤ b && b ≤ 0xDF then
      match bs with
      | b2 :: rest =>
        if contByte b2 then
          (utf8DecodeF fuel rest).map fun cs =>
            Char.ofNat ((b - 0xC0) * 0x40 + (b2 - 0x80)) :: cs
        else Option.none
      | [] => Option.none
    else if 0xE0 ≤ b && b ≤ 0xEF then
      match bs with
      | b2 :: b3 :: rest =>
        if ((if b == 0xE0 then 0xA0 else 0x80) ≤ b2
              && b2 ≤ (if b == 0xED then 0x9F else 0xBF))
            && contByte b3 then
          (utf8DecodeF fuel rest).map fun cs =>
            Char.ofNat ((b - 0xE0) * 0x1000 + (b2 - 0x80) * 0x40 + (b3 - 0x80)) :: cs
        else Option.none
      | _ => Option.none
    else if 0xF0 ≤ b && b ≤ 0xF4 then
      match bs with
      | b2 :: b3 :: b4 :: rest =>
        if ((if b == 0xF0 then 0x90 else 0x80) ≤ b2
              && b2 ≤ (if b == 0xF4 then 0x8F else 0xBF))
            && contByte b3 && contByte b4 then
          (utf8DecodeF fuel rest).map fun cs =>
            Char.ofNat ((b - 0xF0) * 0x40000 + (b2 - 0x80) * 0x1000
              + (b3 - 0x80) * 0x40 + (b4 - 0x80)) :: cs
        else Option.none
      | _ => Option.none
    else Option.none

/-- Strict UTF-8 decoding of a byte string (`Option.none` is the raised
`UnicodeDecodeError`; every step consumes at least one byte, so
`length + 1` fuel always suffices). -/
def utf8Decode (bs : ByteStr) : Option String :=
  (utf8DecodeF (bs.length + 1) bs).map fun cs => String.mk cs

/-- The body decoding statement of `_handle_http` at the byte level:
`json.loads` on a bytes body first decodes it (this model implements the
plain-utf-8 branch of `json.detect_encoding`, the one taken whenever
`detectsUtf8` holds; theorems about byte bodies carry that guard), and an
invalid-UTF-8 body raises `UnicodeDecodeError` — which the surrounding
`except JSONDecodeError` clause does not catch.  A decoded body is
parsed, and only a parse failure is swallowed into Python `None`. -/
def decodeBodyBytes (rawBody : Option ByteStr) : Except PyError Val :=
  match utf8Decode (rawBody.getD [91, 93]) with
  | Option.none => .error .unicodeDecodeError
  | some s =>
    match jsonLoads s with
    | .ok v => .ok v
    | .error _ => .ok Val.none

/-- `MyApp._handle_http` at the byte level.  The body decode sits in the
*first* `try`, whose only handler is `except JSONDecodeError`, and it runs
before the second `try` is entered: a `UnicodeDecodeError` raised there
escapes `_handle_http` uncaught — fatal, no response — even though it is
a `ValueError` subclass that the second `try`'s clauses would have
caught. -/
def handle_http_bytes (eps : List Endpoint) (path : String) (qs : String) (method : String)
    (rawBody : Option ByteStr) : Outcome :=
  match decodeBodyBytes rawBody with
  | .error e => .fatal e
  | .ok data =>
    match find_endpoint eps path qs method data with
    | .error e => dispatchError e
    | .ok (ep, args) =>
      match Endpoint.func ep args with
      | .ok resp => .response resp
      | .error e => dispatchError e

/-- Is a character a `\w` regex word character (ASCII letters, digits,
underscore)? -/
def wordChar (c : Char) : Bool := c.isAlphanum || c == '_'

/-- Maximal leading run of word characters and the remainder. -/
def takeWord : List Char → (List Char × List Char)
  | [] => ([], [])
  | c :: cs =>
    if wordChar c then
      let (w, r) := takeWord cs
      (c :: w, r)
    else ([], c :: cs)

/-- Fuel-indexed scan for the placeholder pattern: an opening brace, a
non-empty word, a closing brace.  Equivalent to scanning with the regex
used in `add_endpoint` (a greedy word run not followed by a closing brace
cannot be rescued by backtracking, since word characters are never
braces). -/
def findPlaceholdersF : Nat → List Char → List String
  | 0, _ => []
  | Nat.succ fuel, cs =>
    match cs with
    | [] => []
    | c :: rest =>
      if c == lbraceChar then
        match takeWord rest with
        | (w, r) =>
          match r with
          | r0 :: rs =>
            if !w.isEmpty && r0 == rbraceChar then
              String.mk w :: findPlaceholdersF fuel rs
            else findPlaceholdersF fuel rest
          | [] => []
      else findPlaceholdersF fuel rest

/-- All placeholder names of a path template, in order:
`re.findall(r"{(\w+)}", path)`. -/
def findPlaceholders (t : String) : List String :=
  findPlaceholdersF (t.length + 1) t.toList

/-- `Registerer.add_endpoint`: extract the placeholder names from the
template, classify the handler's parameters in declaration order (a
parameter is a path parameter when its name occurs among the placeholders,
a query parameter otherwise), and build the `Endpoint` whose route key is
`path.split("/")[1]` — the element at index 1 of the split, which raises
`IndexError` (modelled as `Option.none`) when the template contains no
slash. -/
def add_endpoint (path : String) (method : String) (sig : List (String × PyType))
    (func : Bindings → Except PyError HttpResponse) : Option Endpoint :=
  let args := findPlaceholders path
  let path_sig := sig.filter fun p => args.contains p.1
  let query_sig := sig.filter fun p => !(args.contains p.1)
  match (pySplit path '/').get? 1 with
  | some key => some ⟨key, method, func, path_sig, query_sig.map fun p => ⟨p.1, p.2⟩⟩
  | Option.none => Option.none

/-- Python `**kwargs` binding against a handler with exactly one declared
parameter: succeeds only when the mapping holds exactly that key,
otherwise the call raises `TypeError`. -/
def bindKwargs1 (kwargs : Bindings) (pname : String) : Except PyError Val :=
  match kwargs with
  | [(k, v)] => if k == pname then .ok v else .error .typeError
  | _ => .error .typeError

/-- A value usable where Python arithmetic/comparison expects an `int`
(`bool` is an `int` subclass in Python). -/
def asPyIntLike : Val → Option Int
  | Val.int n => some n
  | Val.bool b => some (if b then 1 else 0)
  | _ => Option.none

/-- `reduce(lambda x, y: x * y, range(1, n + 1), 1)` from the factorial
handler: the product of `1..n`, and `1` when `n ≤ 0`. -/
def pyFactorial (n : Int) : Int :=
  (List.range' 1 n.toNat).foldl (fun x y => x * (y : Int)) 1

/-- The loop of the fibonacci handler: `k` iterations of
`a, b = b, a + b`, returning the final `a`. -/
def fibIter : Nat → Int → Int → Int
  | 0, a, _ => a
  | Nat.succ k, a, b => fibIter k b (a + b)

/-- The `factorial` handler of `src/main.py`: `n < 0` gives a bare 400
response; otherwise the reduced product is JSON-encoded as
`{"result": str(result)}`.  A non-integer `n` raises `TypeError` at the
`n < 0` comparison. -/
def factorialHandler (kwargs : Bindings) : Except PyError HttpResponse :=
  match bindKwargs1 kwargs "n" with
  | .error e => .error e
  | .ok v =>
    match asPyIntLike v with
    | some n =>
      if n < 0 then .ok (HttpResponse.make "" 400 Option.none)
      else .ok (JSONResponse.make (Val.dict [("result", Val.str (toString (pyFactorial n)))]) 200)
    | Option.none => .error .typeError

/-- The `fibonacci` handler of `src/main.py`: starts from `a, b = 1, 1`
and iterates `range(n - 1)` times, so `n = 7` lands on the 7th element of
the sequence 1, 1, 2, 3, 5, 8, 13. -/
def fibonacciHandler (kwargs : Bindings) : Except PyError HttpResponse :=
  match bindKwargs1 kwargs "n" with
  | .error e => .error e
  | .ok v =>
    match asPyIntLike v with
    | some n =>
      if n < 0 then .ok (HttpResponse.make "" 400 Option.none)
      else .ok (JSONResponse.make (Val.dict [("result", Val.str (toString (fibIter (n - 1).toNat 1 1)))]) 200)
    | Option.none => .error .typeError

/-- Python `len()` on the values that support it. -/
def pyLen : Val → Option Nat
  | Val.list xs => some xs.length
  | Val.str s => some s.length
  | Val.dict kvs => some kvs.length
  | _ => Option.none

/-- `sum` over a Python list whose elements must all be int-like, else
`TypeError`. -/
def pySumInts : List Val → Option Int
  | [] => some 0
  | v :: rest =>
    match asPyIntLike v, pySumInts rest with
    | some n, some s => some (n + s)
    | _, _ => Option.none

/-- Exact decimal expansion of `num / den` (`den > 0`), at most `fuel`
fractional digits.  Models CPython float division followed by `str` for
quotients whose decimal expansion terminates; no claim depends on this
function. -/
def decimalDigits : Nat → Nat → Nat → List Char
  | 0, _, _ => []
  | Nat.succ fuel, rem, den =>
    if rem == 0 then []
    else
      let d := rem * 10 / den
      Char.ofNat (48 + d) :: decimalDigits fuel (rem * 10 % den) den

/-- `str(num / den)` for the mean handler, modelled by exact decimal
expansion with the `.0` tail CPython prints for integral floats.  CPython
actually prints the shortest round-trip repr of the IEEE-754 double
(e.g. `1/3` gives `0.3333333333333333`, not 30 digits); the two agree on
integral and short terminating quotients, and no theorem's evaluation
reaches this function. -/
def floatDivStr (num : Int) (den : Nat) : String :=
  let sign := if num < 0 then "-" else ""
  let a := num.natAbs
  let ip := a / den
  let rem := a % den
  if rem == 0 then sign ++ toString ip ++ ".0"
  else sign ++ toString ip ++ "." ++ String.mk (decimalDigits 30 rem den)

/-- The `mean` handler of `src/main.py`: an empty collection gives a bare
400 response, a value without `len()` raises `TypeError`, a non-empty
list of numbers is averaged and JSON-encoded as `{"result": str(result)}`;
non-numeric elements make `sum` raise `TypeError`. -/
def meanHandler (kwargs : Bindings) : Except PyError HttpResponse :=
  match bindKwargs1 kwargs "array" with
  | .error e => .error e
  | .ok v =>
    match pyLen v with
    | Option.none => .error .typeError
    | some 0 => .ok (HttpResponse.make "" 400 Option.none)
    | some (Nat.succ k) =>
      match v with
      | Val.list xs =>
        match pySumInts xs with
        | some s =>
          .ok (JSONResponse.make (Val.dict [("result", Val.str (floatDivStr s (Nat.succ k)))]) 200)
        | Option.none => .error .typeError
      | _ => .error .typeError

/-- Fallback endpoint used only to strip the `Option` from successful
registrations. -/
def emptyEndpoint : Endpoint :=
  ⟨"", "", fun _ => .error .typeError, [], []⟩

/-- The endpoint registered by `@regesterer.register("/factorial/", "GET")`
for `async def factorial(n: int)`. -/
def factorialEndpoint : Endpoint :=
  (add_endpoint "/factorial/" "GET" [("n", PyType.tInt)] factorialHandler).getD emptyEndpoint

/-- The endpoint registered by
`@regesterer.register("/fibonacci/{n}", "GET")` for
`async def fibonacci(n: int)`. -/
def fibonacciEndpoint : Endpoint :=
  (add_endpoint "/fibonacci/\x7bn\x7d" "GET" [("n", PyType.tInt)] fibonacciHandler).getD emptyEndpoint

/-- The endpoint registered by `@regesterer.register("/mean/", "GET")` for
`async def mean(array: list[float | int])`. -/
def meanEndpoint : Endpoint :=
  (add_endpoint "/mean/" "GET" [("array", PyType.tListNum)] meanHandler).getD emptyEndpoint

/-- The route table of `src/main.py`, in registration order. -/
def appEndpoints : List Endpoint := [factorialEndpoint, fibonacciEndpoint, meanEndpoint]

/-! ### Helper lemmas -/

/-- When matching or binding raises, the dispatcher answers with the
classification of `dispatchError` (the handler is never invoked). -/
theorem handle_http_of_find_error (eps : List Endpoint) (path qs method : String)
    (rawBody : Option String) (e : PyError)
    (h : find_endpoint eps path qs method (decodeBody rawBody) = .error e) :
    handle_http eps path qs method rawBody = dispatchError e := by
  unfold handle_http
  rw [h]

/-- On a body whose UTF-8 decoding succeeds, the byte-level dispatcher and
the text-level dispatcher agree: `handle_http` is `handle_http_bytes`
restricted to decodable bodies. -/
theorem handle_http_bytes_agree (eps : List Endpoint) (path qs method : String)
    (bs : ByteStr) (s : String) (h : utf8Decode bs = some s) :
    handle_http_bytes eps path qs method (some bs) = handle_http eps path qs method (some s) := by
  cases hj : jsonLoads s with
  | ok v => simp [handle_http_bytes, handle_http, decodeBodyBytes, decodeBody, h, hj]
  | error e => simp [handle_http_bytes, handle_http, decodeBodyBytes, decodeBody, h, hj]

/-- Writing a key in the dict model makes it readable. -/
theorem dictGet_dictSet_self (d : Bindings) (k : String) (v : Val) :
    dictGet (dictSet d k v) k = some v := by
  induction d with
  | nil => simp [dictSet, dictGet]
  | cons kv rest ih =>
    obtain ⟨k', w⟩ := kv
    by_cases h : k' == k
    · simp [dictSet, h, dictGet]
    · simp [dictSet, h, dictGet, ih]

/-- Writing one key leaves the others unchanged. -/
theorem dictGet_dictSet_ne (d : Bindings) (k k' : String) (v : Val) (h : k' ≠ k) :
    dictGet (dictSet d k v) k' = dictGet d k' := by
  induction d with
  | nil =>
    simp only [dictSet, dictGet]
    rw [if_neg]
    simp [Ne.symm h]
  | cons kv rest ih =>
    obtain ⟨k0, w⟩ := kv
    by_cases h0 : k0 == k
    · have hk0 : k0 = k := by simpa using h0
      subst hk0
      simp [dictSet, dictGet, Ne.symm h]
    · simp [dictSet, h0, dictGet, ih]

/-- Query binding never touches a name that occurs nowhere in the query
map being iterated. -/
theorem bindQuery_preserve (qmap : List (String × String)) :
    ∀ (decl : List QParam) (acc : Bindings) (qAll : List (String × String))
      (d : Bindings) (nm : String),
      bindQuery qmap decl acc qAll = .ok d →
      (∀ kv ∈ qmap, kv.1 ≠ nm) →
      dictGet d nm = dictGet acc nm := by
  induction qmap with
  | nil =>
    intro decl acc qAll d nm hok _
    cases hok
    rfl
  | cons kv rest ih =>
    intro decl acc qAll d nm hok hne
    obtain ⟨name, value⟩ := kv
    cases decl with
    | nil => exact absurd hok (by simp [bindQuery])
    | cons q qrest =>
      have hname : name ≠ nm := hne (name, value) (List.mem_cons_self _ _)
      by_cases hg : (qAll.any fun kv => kv.1 == name) = true
      · rw [bindQuery, if_pos hg] at hok
        cases hc : coerce (QParam.ann q) value with
        | error e => rw [hc] at hok; cases hok
        | ok w =>
          rw [hc] at hok
          have := ih qrest (dictSet acc name w) qAll d nm hok
            (fun kv hm => hne kv (List.mem_cons_of_mem _ hm))
          rw [this]
          exact dictGet_dictSet_ne acc name nm w (Ne.symm hname)
      · rw [bindQuery, if_neg hg] at hok
        exact ih qrest acc qAll d nm hok (fun kv hm => hne kv (List.mem_cons_of_mem _ hm))

/-- The engine of the positional query-binding claim: when step 2
succeeds, the value finally stored under the `i`-th query key is exactly
the coercion of the `i`-th query value by the annotation of the `i`-th
declared query parameter. -/
theorem bindQuery_get (qmap : List (String × String)) :
    ∀ (decl : List QParam) (acc : Bindings) (qAll : List (String × String))
      (d : Bindings) (i : Nat) (name value : String),
      bindQuery qmap decl acc qAll = .ok d →
      (∀ kv ∈ qmap, (qAll.any fun x => x.1 == kv.1) = true) →
      (qmap.map Prod.fst).Nodup →
      qmap.get? i = some (name, value) →
      ((decl.get? i).bind fun q => exceptToOption (coerce (QParam.ann q) value)) = dictGet d name
      ∧ (dictGet d name).isSome = true := by
  induction qmap with
  | nil =>
    intro decl acc qAll d i name value _ _ _ hget
    simp at hget
  | cons kv rest ih =>
    intro decl acc qAll d i name value hok hsub hnd hget
    obtain ⟨n0, v0⟩ := kv
    cases decl with
    | nil => exact absurd hok (by simp [bindQuery])
    | cons q qrest =>
      have hg : (qAll.any fun x => x.1 == n0) = true :=
        hsub (n0, v0) (List.mem_cons_self _ _)
      rw [bindQuery, if_pos hg] at hok
      cases hc : coerce (QParam.ann q) v0 with
      | error e => rw [hc] at hok; cases hok
      | ok w =>
        rw [hc] at hok
        have hnd2 : n0 ∉ rest.map Prod.fst ∧ (rest.map Prod.fst).Nodup := by
          simpa [List.nodup_cons] using hnd
        cases i with
        | zero =>
          have hn : n0 = name ∧ v0 = value := by
            simpa [Prod.ext_iff] using hget
          obtain ⟨hn1, hn2⟩ := hn
          subst hn1
          subst hn2
          have hrest : ∀ kv ∈ rest, kv.1 ≠ n0 := by
            intro kv hm heq
            exact hnd2.1 (heq ▸ List.mem_map_of_mem Prod.fst hm)
          have hpres := bindQuery_preserve rest qrest (dictSet acc n0 w) qAll d n0 hok hrest
          rw [hpres, dictGet_dictSet_self]
          constructor
          · simp [hc, exceptToOption]
          · rfl
        | succ i2 =>
          have hget2 : rest.get? i2 = some (name, value) := by simpa using hget
          have := ih qrest (dictSet acc n0 w) qAll d i2 name value hok
            (fun kv hm => hsub kv (List.mem_cons_of_mem _ hm)) hnd2.2 hget2
          simpa using this

/-- Step 1 with more raw segments than declared path parameters ends in
`IndexError`, provided no in-range segment fails coercion first. -/
theorem bindPath_overflow (decl : List (String × PyType)) :
    ∀ (segs : List String) (acc : Bindings),
      decl.length < segs.length →
      ((segs.zip decl).all fun p => exceptOk (coerce p.2.2 p.1)) = true →
      bindPath segs decl acc = .error .indexError := by
  induction decl with
  | nil =>
    intro segs acc h _
    cases segs with
    | nil => simp at h
    | cons s srest => rfl
  | cons d ds ih =>
    intro segs acc h hall
    obtain ⟨n, t⟩ := d
    cases segs with
    | nil => simp at h
    | cons s srest =>
      rw [List.zip_cons_cons, List.all_cons, Bool.and_eq_true] at hall
      cases hc : coerce t s with
      | error e => rw [hc] at hall; simp [exceptOk] at hall
      | ok v =>
        rw [bindPath, hc]
        exact ih srest (dictSet acc n v) (by simpa using h) hall.2

/-- Step 2 with more query-map entries than declared query parameters ends
in `IndexError`, provided no in-range entry fails coercion first. -/
theorem bindQuery_overflow (decl : List QParam) :
    ∀ (qmap : List (String × String)) (acc : Bindings) (qAll : List (String × String)),
      decl.length < qmap.length →
      ((qmap.zip decl).all fun p => exceptOk (coerce (QParam.ann p.2) p.1.2)) = true →
      bindQuery qmap decl acc qAll = .error .indexError := by
  induction decl with
  | nil =>
    intro qmap acc qAll h _
    cases qmap with
    | nil => simp at h
    | cons kv rest =>
      obtain ⟨name, value⟩ := kv
      rfl
  | cons q qs ih =>
    intro qmap acc qAll h hall
    cases qmap with
    | nil => simp at h
    | cons kv rest =>
      obtain ⟨name, value⟩ := kv
      rw [List.zip_cons_cons, List.all_cons, Bool.and_eq_true] at hall
      by_cases hg : (qAll.any fun kv => kv.1 == name) = true
      · cases hc : coerce (QParam.ann q) value with
        | error e => rw [hc] at hall; simp [exceptOk] at hall
        | ok w =>
          rw [bindQuery, if_pos hg, hc]
          exact ih rest (dictSet acc name w) qAll (by simpa using h) hall.2
      · rw [bindQuery, if_neg hg]
        exact ih rest acc qAll (by simpa using h) hall.2

/-- The matching loop raises `NotImplementedError("Not found")` when no
endpoint agrees with the request's route key and method. -/
theorem findLoop_no_match (eps : List Endpoint) :
    ∀ (ep_path : String) (segs : List String) (qmap : List (String × String))
      (method : String) (data : Val),
      (eps.all fun ep => !(ep.path == ep_path && ep.method == method)) = true →
      findLoop eps ep_path segs qmap method data = .error .notImplementedError := by
  induction eps with
  | nil => intro _ _ _ _ _ _; rfl
  | cons ep rest ih =>
    intro ep_path segs qmap method data hall
    rw [List.all_cons, Bool.and_eq_true] at hall
    have h1 : (ep.path == ep_path && ep.method == method) = false := by
      simpa only [Bool.not_eq_true'] using hall.1
    rw [findLoop, if_neg (by simp [h1])]
    exact ih ep_path segs qmap method data hall.2

/-- Specification-side definition (what the spec's words say `routeKey`
is, for the comparison in C6): the first non-empty `/`-separated segment
of a path template. -/
def specFirstNonEmptySegment (t : String) : Option String :=
  ((pySplit t '/').filter fun x => x != "").head?

/-! ### Claims -/

/-- C1: the claim states that the JSON body is assigned only to query
parameters still unbound after steps 1-2, a bound parameter keeping its
coerced query-string value.  The code violates this: the membership test
of the `diff` comprehension compares `inspect.Parameter` objects with
`str` keys and is always false, so for `GET /factorial/?n=5` with JSON
body `[1, 2, 3]` the already-bound `n = 5` is overwritten with the whole
body, and the handler's `n < 0` comparison then raises `TypeError`,
answered as 422 instead of the 200 the claim implies. -/
theorem C1_body_overwrites_bound_query :
    (find_endpoint appEndpoints "/factorial/" "n=5" "GET"
        (Val.list [Val.int 1, Val.int 2, Val.int 3])).map (fun p => p.2) =
      .ok [("n", Val.list [Val.int 1, Val.int 2, Val.int 3])]
    ∧ handle_http appEndpoints "/factorial/" "n=5" "GET" (some "[1, 2, 3]") =
      .response (HttpResponse.make "" 422 Option.none) :=
  ⟨rfl, rfl⟩

/-- C2 counterexample: body decoding is NOT total.  The single byte
`0xFF` is routed to plain utf-8 by `detect_encoding` but is not valid
UTF-8, so `json.loads` raises `UnicodeDecodeError` — a `ValueError`
subclass that `except JSONDecodeError` does not catch — and the
dispatcher dies with no response instead of handing the binder a null
body. -/
theorem C2_undecodable_body_counterexample :
    detectsUtf8 [0xFF] = true
    ∧ decodeBodyBytes (some [0xFF]) = .error .unicodeDecodeError
    ∧ (Except.error PyError.unicodeDecodeError : Except PyError Val) ≠ .ok Val.none
    ∧ handle_http_bytes appEndpoints "/factorial/" "n=5" "GET" (some [0xFF]) =
        .fatal .unicodeDecodeError :=
  ⟨rfl, rfl, by intro h; exact Except.noConfusion h, rfl⟩

/-- C2 amended: decoding is lenient but not total.  An absent body (empty
byte string) and any malformed body that decodes as UTF-8 are swallowed by
`except JSONDecodeError` into a null body; but an invalid-UTF-8 body
(within the plain-utf-8 domain of `detect_encoding`, which the
`detectsUtf8` hypotheses pin down) raises `UnicodeDecodeError`, which that
clause does not catch: it escapes the dispatcher before the second `try`
begins, and no response is sent. -/
theorem C2_lenient_body_decode_amended :
    decodeBodyBytes (some []) = .ok Val.none
    ∧ (∀ (bs : ByteStr) (s : String), detectsUtf8 bs = true → utf8Decode bs = some s →
        exceptOk (jsonLoads s) = false → decodeBodyBytes (some bs) = .ok Val.none)
    ∧ (∀ bs : ByteStr, detectsUtf8 bs = true → utf8Decode bs = Option.none →
        decodeBodyBytes (some bs) = .error .unicodeDecodeError)
    ∧ (∀ (eps : List Endpoint) (path qs method : String) (bs : ByteStr),
        decodeBodyBytes (some bs) = .error .unicodeDecodeError →
        handle_http_bytes eps path qs method (some bs) = .fatal .unicodeDecodeError) := by
  refine ⟨rfl, ?_, ?_, ?_⟩
  · intro bs s _ hdec hj
    cases hjl : jsonLoads s with
    | ok v => rw [hjl] at hj; simp [exceptOk] at hj
    | error e => simp [decodeBodyBytes, hdec, hjl]
  · intro bs _ hdec
    simp [decodeBodyBytes, hdec]
  · intro eps path qs method bs h
    unfold handle_http_bytes
    rw [h]

/-- Witness for C2 amended: the malformed-but-decodable body `xyz` yields
null, the undecodable body `0xFF` raises, and the raised error is fatal
to the request. -/
theorem C2_lenient_body_decode_amended_witness :
    (detectsUtf8 [120, 121, 122] = true ∧ utf8Decode [120, 121, 122] = some "xyz"
      ∧ exceptOk (jsonLoads "xyz") = false
      ∧ decodeBodyBytes (some [120, 121, 122]) = .ok Val.none)
    ∧ (detectsUtf8 [0xFF] = true ∧ utf8Decode [0xFF] = (Option.none : Option String)
      ∧ decodeBodyBytes (some [0xFF]) = .error .unicodeDecodeError)
    ∧ handle_http_bytes [] "/x" "" "GET" (some [0xFF]) = .fatal .unicodeDecodeError := by
  refine ⟨⟨rfl, rfl, rfl, ?_⟩, ⟨rfl, rfl, ?_⟩, ?_⟩
  · exact C2_lenient_body_decode_amended.2.1 [120, 121, 122] "xyz" rfl rfl rfl
  · exact C2_lenient_body_decode_amended.2.2.1 [0xFF] rfl rfl
  · exact C2_lenient_body_decode_amended.2.2.2 [] "/x" "" "GET" [0xFF] rfl

/-- C3 counterexample: for `GET /fibonacci/1/2` (two segments after the
route key against one declared path parameter) the dispatcher does not
respond 422; the binder's `IndexError` escapes uncaught and no response
is sent. -/
theorem C3_excess_path_segments_counterexample :
    handle_http appEndpoints "/fibonacci/1/2" "" "GET" (some "") = .fatal .indexError
    ∧ Outcome.fatal PyError.indexError ≠
        Outcome.response (HttpResponse.make "" 422 Option.none) :=
  ⟨rfl, by decide⟩

/-- C3 amended: a path with more segments after the route key than
declared path parameters makes binding raise `IndexError` (provided every
in-range segment coerces, else a coercion error yields 422 first), and
`IndexError` is not converted to any response: it propagates out of the
dispatcher. -/
theorem C3_excess_path_segments_uncaught :
    (∀ (segs : List String) (decl : List (String × PyType)) (acc : Bindings),
       decl.length < segs.length →
       ((segs.zip decl).all fun p => exceptOk (coerce p.2.2 p.1)) = true →
       bindPath segs decl acc = .error .indexError)
    ∧ (∀ (eps : List Endpoint) (path qs method : String) (rawBody : Option String),
       find_endpoint eps path qs method (decodeBody rawBody) = .error .indexError →
       handle_http eps path qs method rawBody = .fatal .indexError) := by
  constructor
  · intro segs decl acc h hall
    exact bindPath_overflow decl segs acc h hall
  · intro eps path qs method rawBody h
    rw [handle_http_of_find_error eps path qs method rawBody .indexError h]
    rfl

/-- Witness for C3 amended: the fibonacci endpoint under
`GET /fibonacci/1/2`. -/
theorem C3_excess_path_segments_uncaught_witness :
    bindPath ["1", "2"] [("n", PyType.tInt)] [] = .error .indexError
    ∧ handle_http appEndpoints "/fibonacci/1/2" "" "GET" (some "x") = .fatal .indexError :=
  ⟨C3_excess_path_segments_uncaught.1 ["1", "2"] [("n", PyType.tInt)] [] (by decide) (by decide),
   C3_excess_path_segments_uncaught.2 appEndpoints "/fibonacci/1/2" "" "GET" (some "x") rfl⟩

/-- C4: every `ValueError`/`TypeError`/`JSONDecodeError` escaping matching
or binding is answered 422, the `NotImplementedError` raised when no
endpoint matches the route key and method is answered 404, and no other
exception type becomes a response (it is fatal). -/
theorem C4_error_mapping :
    (∀ (eps : List Endpoint) (path qs method : String) (rawBody : Option String) (e : PyError),
       find_endpoint eps path qs method (decodeBody rawBody) = .error e →
       handle_http eps path qs method rawBody = dispatchError e)
    ∧ (∀ e : PyError, caught422 e = true →
        dispatchError e = .response (HttpResponse.make "" 422 Option.none))
    ∧ dispatchError .notImplementedError = .response (HttpResponse.make "" 404 Option.none)
    ∧ (∀ e : PyError, caught422 e = false → e ≠ .notImplementedError →
        dispatchError e = .fatal e)
    ∧ (∀ (eps : List Endpoint) (ep_path : String) (segs : List String)
         (qmap : List (String × String)) (method : String) (data : Val),
         (eps.all fun ep => !(ep.path == ep_path && ep.method == method)) = true →
         findLoop eps ep_path segs qmap method data = .error .notImplementedError) := by
  refine ⟨?_, ?_, rfl, ?_, ?_⟩
  · exact handle_http_of_find_error
  · intro e h
    simp [dispatchError, h]
  · intro e h1 h2
    simp [dispatchError, h1, h2]
  · intro eps ep_path segs qmap method data h
    exact findLoop_no_match eps ep_path segs qmap method data h

/-- Witness for C4: an empty route table never matches, the request is
answered 404, and a `ValueError` is classified 422. -/
theorem C4_error_mapping_witness :
    findLoop [] "unknownroute" [] [] "GET" Val.none = .error .notImplementedError
    ∧ handle_http [] "/unknownroute" "" "GET" (some "") =
        .response (HttpResponse.make "" 404 Option.none)
    ∧ dispatchError .valueError = .response (HttpResponse.make "" 422 Option.none) := by
  refine ⟨C4_error_mapping.2.2.2.2 [] "unknownroute" [] [] "GET" Val.none rfl, ?_, ?_⟩
  · have h := C4_error_mapping.1 [] "/unknownroute" "" "GET" (some "") .notImplementedError rfl
    rw [h]
    rfl
  · exact C4_error_mapping.2.1 .valueError rfl

/-- C5: when step 2 succeeds, the `i`-th entry of the query map was
coerced with the annotation of the `i`-th declared query parameter
(positional, not name-matched pairing) and the result is stored under the
query key's own name. -/
theorem C5_positional_query_binding :
    ∀ (qmap : List (String × String)) (decl : List QParam) (acc d : Bindings)
      (i : Nat) (name value : String),
      bindQuery qmap decl acc qmap = .ok d →
      (qmap.map Prod.fst).Nodup →
      qmap.get? i = some (name, value) →
      ((decl.get? i).bind fun q => exceptToOption (coerce (QParam.ann q) value)) = dictGet d name
      ∧ (dictGet d name).isSome = true := by
  intro qmap decl acc d i name value hok hnd hget
  refine bindQuery_get qmap decl acc qmap d i name value hok ?_ hnd hget
  intro kv hm
  exact List.any_eq_true.2 ⟨kv, hm, by simp⟩

/-- Witness for C5: query key `b` at index 0 is coerced with the `int`
annotation of the differently-named first declared parameter `a`, and
key `a` at index 1 with the list annotation of `b`. -/
theorem C5_positional_query_binding_witness :
    bindQuery [("b", "7"), ("a", "8")] [⟨"a", PyType.tInt⟩, ⟨"b", PyType.tListNum⟩] []
        [("b", "7"), ("a", "8")] = .ok [("b", Val.int 7), ("a", Val.list [Val.int 56])]
    ∧ (([(⟨"a", PyType.tInt⟩ : QParam), ⟨"b", PyType.tListNum⟩].get? 0).bind fun q =>
          exceptToOption (coerce (QParam.ann q) "7")) =
        dictGet [("b", Val.int 7), ("a", Val.list [Val.int 56])] "b"
    ∧ (dictGet [("b", Val.int 7), ("a", Val.list [Val.int 56])] "b").isSome = true := by
  have h := C5_positional_query_binding [("b", "7"), ("a", "8")]
    [⟨"a", PyType.tInt⟩, ⟨"b", PyType.tListNum⟩] []
    [("b", Val.int 7), ("a", Val.list [Val.int 56])] 0 "b" "7" rfl (by decide) rfl
  exact ⟨rfl, h.1, h.2⟩

/-- C6 counterexample: for the template `a/b` the produced route key is
`b`, the element at index 1 of the split, not the first non-empty segment
`a`. -/
theorem C6_route_key_counterexample :
    (add_endpoint "a/b" "GET" [] factorialHandler).map Endpoint.path = some "b"
    ∧ specFirstNonEmptySegment "a/b" = some "a"
    ∧ ("b" : String) ≠ "a" :=
  ⟨rfl, rfl, by decide⟩

/-- C6 amended: the route key is the element at index 1 of the
`/`-split of the template (failing registration when no `/` occurs); when
the template starts with `/` and that element is non-empty — every
template of `src/main.py` — it coincides with the first non-empty
segment, and the rest of the template is discarded either way. -/
theorem C6_route_key_split_index_one :
    (∀ (t m : String) (sig : List (String × PyType))
       (f : Bindings → Except PyError HttpResponse),
       (add_endpoint t m sig f).map Endpoint.path = (pySplit t '/').get? 1)
    ∧ (∀ (t s : String) (rest : List String),
       pySplit t '/' = "" :: s :: rest → s ≠ "" →
       specFirstNonEmptySegment t = some s) := by
  constructor
  · intro t m sig f
    cases h : (pySplit t '/')[1]? with
    | none => simp [add_endpoint, h, List.get?_eq_getElem?]
    | some key => simp [add_endpoint, h, List.get?_eq_getElem?]
  · intro t s rest h hs
    rw [specFirstNonEmptySegment, h]
    simp [List.filter_cons, hs]

/-- Witness for C6 amended at the template `/factorial/`. -/
theorem C6_route_key_split_index_one_witness :
    (add_endpoint "/factorial/" "GET" [("n", PyType.tInt)] factorialHandler).map Endpoint.path =
      some "factorial"
    ∧ specFirstNonEmptySegment "/factorial/" = some "factorial" := by
  constructor
  · rw [C6_route_key_split_index_one.1]
    rfl
  · exact C6_route_key_split_index_one.2 "/factorial/" "factorial" [""] rfl (by decide)

/-- C7: `GET /fibonacci/7` with no body is answered 200 with body
`{"result": "13"}`, the 7th element of the fibonacci sequence starting
1, 1, 2, 3, 5, 8, 13. -/
theorem C7_fibonacci_request :
    handle_http appEndpoints "/fibonacci/7" "" "GET" (some "") =
      .response (HttpResponse.make "\x7b\x22result\x22: \x2213\x22\x7d" 200 Option.none) :=
  rfl

/-- C8: a `JSONResponse` (whose constructor cannot even receive headers)
always carries the inherited default `content-type: text/plain` header,
despite the JSON-encoded body. -/
theorem C8_json_response_default_headers :
    ∀ (v : Val) (sc : Nat),
      (JSONResponse.make v sc).headers = [("content-type", "text/plain")] :=
  fun _ _ => rfl

/-- C9: an empty but non-`None` headers collection is falsy, so header
defaulting by truthiness replaces it with the same default an absent
argument gets. -/
theorem C9_empty_headers_collection_defaulted :
    ∀ (body : String) (sc : Nat),
      (HttpResponse.make body sc (some [])).headers = [("content-type", "text/plain")]
      ∧ (HttpResponse.make body sc (some [])).headers =
          (HttpResponse.make body sc Option.none).headers :=
  fun _ _ => ⟨rfl, rfl⟩

/-- C10 counterexample: for `GET /factorial/?x=abc&y=1` the query map has
two entries against one declared query parameter, yet a response *is*
sent: the coercion of the first entry fails with `ValueError` before the
index overflow is reached, and the dispatcher answers 422. -/
theorem C10_excess_query_entries_counterexample :
    (parseQS "x=abc&y=1").length = 2
    ∧ (Endpoint.query_args factorialEndpoint).length = 1
    ∧ handle_http appEndpoints "/factorial/" "x=abc&y=1" "GET" (some "") =
        .response (HttpResponse.make "" 422 Option.none) :=
  ⟨rfl, rfl, rfl⟩

/-- C10 amended: with more query-map entries than declared query
parameters, and every in-range entry coercing successfully, binding
raises `IndexError`, which the dispatcher maps to neither 422 nor 404: no
response is sent and the error propagates.  (When an in-range coercion
fails first, its `ValueError`/`TypeError` is answered 422 instead.) -/
theorem C10_excess_query_entries_uncaught :
    (∀ (qmap : List (String × String)) (decl : List QParam) (acc : Bindings)
       (qAll : List (String × String)),
       decl.length < qmap.length →
       ((qmap.zip decl).all fun p => exceptOk (coerce (QParam.ann p.2) p.1.2)) = true →
       bindQuery qmap decl acc qAll = .error .indexError)
    ∧ (∀ (eps : List Endpoint) (path qs method : String) (rawBody : Option String),
       find_endpoint eps path qs method (decodeBody rawBody) = .error .indexError →
       handle_http eps path qs method rawBody = .fatal .indexError) := by
  constructor
  · intro qmap decl acc qAll h hall
    exact bindQuery_overflow decl qmap acc qAll h hall
  · intro eps path qs method rawBody h
    rw [handle_http_of_find_error eps path qs method rawBody .indexError h]
    rfl

/-- Witness for C10 amended: `GET /factorial/?n=5&y=1` (two query entries,
one declared query parameter, first entry coercible). -/
theorem C10_excess_query_entries_uncaught_witness :
    bindQuery [("n", "5"), ("y", "1")] [⟨"n", PyType.tInt⟩] [] [("n", "5"), ("y", "1")] =
      .error .indexError
    ∧ handle_http appEndpoints "/factorial/" "n=5&y=1" "GET" (some "") = .fatal .indexError :=
  ⟨C10_excess_query_entries_uncaught.1 [("n", "5"), ("y", "1")] [⟨"n", PyType.tInt⟩] []
      [("n", "5"), ("y", "1")] (by decide) (by decide),
   C10_excess_query_entries_uncaught.2 appEndpoints "/factorial/" "n=5&y=1" "GET" (some "") rfl⟩
